import Mathlib

/-!
Verification of `verify_json.py`, a batch JSON validator.

The script iterates over a hardcoded list of two locale-file paths; for each
path it opens the file as UTF-8 text, parses it with `json.load`, and prints
`OK: <path>` on success or `ERROR: <path>` followed by `str(e)` on any
exception.  We embed the script shallowly: the filesystem is a function from
paths to open/decode outcomes, `json.load` is modelled by a fuel-based
recursive-descent parser over the decoded text, Python exceptions become an
inductive type with their `str` rendering, and the `for` loop becomes list
recursion.  An `Except`-level semantics records which exceptions escape, and
an event-trace semantics records opens, closes, writes and prints for the
resource claims.
-/

namespace VerifyJson

/-- Named punctuation characters used by the JSON grammar. -/
def lbraceC : Char := Char.ofNat 123

def rbraceC : Char := Char.ofNat 125

def lbrackC : Char := Char.ofNat 91

def rbrackC : Char := Char.ofNat 93

def dquoteC : Char := Char.ofNat 34

def bslashC : Char := Char.ofNat 92

def commaC : Char := Char.ofNat 44

def colonC : Char := Char.ofNat 58

def spaceC : Char := Char.ofNat 32

def tabC : Char := Char.ofNat 9

def nlC : Char := Char.ofNat 10

def crC : Char := Char.ofNat 13

def squoteS : String := String.mk [Char.ofNat 39]

/-- A JSON value, as produced by Python json.load.  Number values keep their
source lexeme: the script only cares about parse success, never the numeric
value. -/
inductive Json where
  | null : Json
  | bool (b : Bool) : Json
  | num (lexeme : String) : Json
  | str (s : String) : Json
  | arr (elems : List Json) : Json
  | obj (members : List (String × Json)) : Json
deriving Repr

/-- A JSON syntax error: message and character offset into the document,
mirroring json.JSONDecodeError msg and pos attributes. -/
structure JErr where
  msg : String
  pos : Nat
deriving Repr, DecidableEq

/-- Whitespace accepted between JSON tokens (space, tab, newline, carriage
return, as in the Python json module). -/
def isJsonWs (c : Char) : Bool :=
  c = spaceC || c = tabC || c = nlC || c = crC

/-- Skip whitespace, tracking the character offset. -/
def skipWs : List Char → Nat → List Char × Nat
  | [], pos => ([], pos)
  | c :: cs, pos =>
    if isJsonWs c then skipWs cs (pos + 1) else (c :: cs, pos)

/-- Hexadecimal digit value, for unicode escapes. -/
def hexVal (c : Char) : Option Nat :=
  if c.isDigit then some (c.toNat - 48)
  else if 97 ≤ c.toNat && c.toNat ≤ 102 then some (c.toNat - 87)
  else if 65 ≤ c.toNat && c.toNat ≤ 70 then some (c.toNat - 55)
  else none

/-- Result of one parsing step: parsed value, remaining characters, new
offset. -/
abbrev PRes (α : Type) := Except JErr (α × List Char × Nat)

/-- Parse the body of a JSON string, after the opening double quote.
`start` is the offset of the opening quote, for the error message of an
unterminated string.  Fuel bounds the recursion; the entry point supplies
more fuel than any input can consume. -/
def parseStringBody (fuel : Nat) (cs : List Char) (pos start : Nat)
    (acc : List Char) : PRes String :=
  match fuel with
  | 0 => .error ⟨"Maximum recursion depth exceeded", pos⟩
  | fuel + 1 =>
    match cs with
    | [] => .error ⟨"Unterminated string starting at", start⟩
    | c :: rest =>
      if c = dquoteC then .ok (String.mk acc.reverse, rest, pos + 1)
      else if c = bslashC then
        match rest with
        | [] => .error ⟨"Unterminated string starting at", start⟩
        | e :: rest2 =>
          if e = dquoteC then parseStringBody fuel rest2 (pos + 2) start (dquoteC :: acc)
          else if e = bslashC then parseStringBody fuel rest2 (pos + 2) start (bslashC :: acc)
          else if e = Char.ofNat 47 then parseStringBody fuel rest2 (pos + 2) start (Char.ofNat 47 :: acc)
          else if e = Char.ofNat 98 then parseStringBody fuel rest2 (pos + 2) start (Char.ofNat 8 :: acc)
          else if e = Char.ofNat 102 then parseStringBody fuel rest2 (pos + 2) start (Char.ofNat 12 :: acc)
          else if e = Char.ofNat 110 then parseStringBody fuel rest2 (pos + 2) start (nlC :: acc)
          else if e = Char.ofNat 114 then parseStringBody fuel rest2 (pos + 2) start (crC :: acc)
          else if e = Char.ofNat 116 then parseStringBody fuel rest2 (pos + 2) start (tabC :: acc)
          else if e = Char.ofNat 117 then
            match rest2 with
            | h1 :: h2 :: h3 :: h4 :: rest3 =>
              match hexVal h1, hexVal h2, hexVal h3, hexVal h4 with
              | some v1, some v2, some v3, some v4 =>
                parseStringBody fuel rest3 (pos + 6) start
                  (Char.ofNat (((v1 * 16 + v2) * 16 + v3) * 16 + v4) :: acc)
              | _, _, _, _ => .error ⟨"Invalid uXXXX escape", pos + 1⟩
            | _ => .error ⟨"Invalid uXXXX escape", pos + 1⟩
          else .error ⟨"Invalid escape", pos⟩
      else if c.toNat < 32 then .error ⟨"Invalid control character at", pos⟩
      else parseStringBody fuel rest (pos + 1) start (c :: acc)

/-- Split a leading run of decimal digits from the rest. -/
def spanDigits : List Char → List Char × List Char
  | [] => ([], [])
  | c :: cs =>
    if c.isDigit then
      let (d, r) := spanDigits cs
      (c :: d, r)
    else ([], c :: cs)

/-- Parse a JSON number starting at `cs` (first character is a digit or a
minus sign), maximal-munch like the Python json NUMBER_RE regex:
optional minus, integer part without leading zeros, optional fraction,
optional exponent. -/
def parseNumber (cs : List Char) (pos : Nat) : PRes Json :=
  let (sign, cs1, p1) :=
    match cs with
    | c :: r => if c = Char.ofNat 45 then ([c], r, pos + 1) else (([] : List Char), cs, pos)
    | [] => (([] : List Char), cs, pos)
  match cs1 with
  | [] => .error ⟨"Expecting value", pos⟩
  | c :: r =>
    if c = Char.ofNat 48 then
      -- a leading zero is never followed by more integer digits
      numTail (sign ++ [c]) r (p1 + 1)
    else if c.isDigit then
      let (d, rest) := spanDigits r
      numTail (sign ++ c :: d) rest (p1 + 1 + d.length)
    else .error ⟨"Expecting value", pos⟩
where
  /-- Optional fraction and exponent after the integer part. -/
  numTail (intPart : List Char) (cs : List Char) (pos : Nat) : PRes Json :=
    let (withFrac, cs2, p2) :=
      match cs with
      | c :: d :: r =>
        if c = Char.ofNat 46 && d.isDigit then
          let (ds, rest) := spanDigits r
          (intPart ++ c :: d :: ds, rest, pos + 2 + ds.length)
        else (intPart, cs, pos)
      | _ => (intPart, cs, pos)
    let (withExp, cs3, p3) :=
      match cs2 with
      | c :: r =>
        if c = Char.ofNat 101 || c = Char.ofNat 69 then
          match r with
          | s :: d :: r2 =>
            if (s = Char.ofNat 43 || s = Char.ofNat 45) && d.isDigit then
              let (ds, rest) := spanDigits r2
              (withFrac ++ c :: s :: d :: ds, rest, p2 + 3 + ds.length)
            else if s.isDigit then
              let (ds, rest) := spanDigits (d :: r2)
              (withFrac ++ c :: s :: ds, rest, p2 + 2 + ds.length)
            else (withFrac, cs2, p2)
          | [s] =>
            if s.isDigit then (withFrac ++ [c, s], ([] : List Char), p2 + 2)
            else (withFrac, cs2, p2)
          | [] => (withFrac, cs2, p2)
        else (withFrac, cs2, p2)
      | [] => (withFrac, cs2, p2)
    .ok (Json.num (String.mk withExp), cs3, p3)

/-- The production the recursive-descent scanner is currently parsing: a
value, an object body after its opening brace, the members of a non-empty
object, an array body after its opening bracket, or the continuation of a
non-empty array.  A single mode inductive lets the whole scanner be one
structurally recursive function on fuel, so that it evaluates by kernel
reduction. -/
inductive PMode where
  | value : PMode
  | objectStart : PMode
  | members (acc : List (String × Json)) : PMode
  | arrayStart : PMode
  | items (acc : List Json) : PMode

/-- The scanner of the Python json module, as one fuel-indexed function over
parse modes.  Fuel decreases on every recursive call; the entry point
supplies more than any input can consume. -/
def parseCore : Nat → PMode → List Char → Nat → PRes Json
  | 0, _, _, pos => .error ⟨"Maximum recursion depth exceeded", pos⟩
  | Nat.succ fuel, PMode.value, cs, pos =>
    match cs with
    | [] => .error ⟨"Expecting value", pos⟩
    | c :: rest =>
      if c = lbraceC then parseCore fuel PMode.objectStart rest (pos + 1)
      else if c = lbrackC then parseCore fuel PMode.arrayStart rest (pos + 1)
      else if c = dquoteC then
        match parseStringBody fuel rest (pos + 1) pos [] with
        | .ok (s, r, p) => .ok (Json.str s, r, p)
        | .error e => .error e
      else if c = Char.ofNat 116 then
        match rest with
        | r1 :: u1 :: e1 :: r =>
          if r1 = Char.ofNat 114 && u1 = Char.ofNat 117 && e1 = Char.ofNat 101 then
            .ok (Json.bool true, r, pos + 4)
          else .error ⟨"Expecting value", pos⟩
        | _ => .error ⟨"Expecting value", pos⟩
      else if c = Char.ofNat 102 then
        match rest with
        | a1 :: l1 :: s1 :: e1 :: r =>
          if a1 = Char.ofNat 97 && l1 = Char.ofNat 108 && s1 = Char.ofNat 115 &&
              e1 = Char.ofNat 101 then
            .ok (Json.bool false, r, pos + 5)
          else .error ⟨"Expecting value", pos⟩
        | _ => .error ⟨"Expecting value", pos⟩
      else if c = Char.ofNat 110 then
        match rest with
        | u1 :: l1 :: l2 :: r =>
          if u1 = Char.ofNat 117 && l1 = Char.ofNat 108 && l2 = Char.ofNat 108 then
            .ok (Json.null, r, pos + 4)
          else .error ⟨"Expecting value", pos⟩
        | _ => .error ⟨"Expecting value", pos⟩
      else if c.isDigit || c = Char.ofNat 45 then parseNumber (c :: rest) pos
      else .error ⟨"Expecting value", pos⟩
  | Nat.succ fuel, PMode.objectStart, cs, pos =>
    let (cs1, p1) := skipWs cs pos
    match cs1 with
    | [] => .error ⟨"Expecting property name enclosed in double quotes", p1⟩
    | c :: rest =>
      if c = rbraceC then .ok (Json.obj [], rest, p1 + 1)
      else if c = dquoteC then parseCore fuel (PMode.members []) (c :: rest) p1
      else .error ⟨"Expecting property name enclosed in double quotes", p1⟩
  | Nat.succ fuel, PMode.members acc, cs, pos =>
    match cs with
    | [] => .error ⟨"Expecting property name enclosed in double quotes", pos⟩
    | c :: rest =>
      if c = dquoteC then
        match parseStringBody fuel rest (pos + 1) pos [] with
        | .error e => .error e
        | .ok (key, r1, p1) =>
          let (r2, p2) := skipWs r1 p1
          match r2 with
          | [] => .error ⟨"Expecting colon delimiter", p2⟩
          | d :: r3 =>
            if d = colonC then
              let (r4, p4) := skipWs r3 (p2 + 1)
              match parseCore fuel PMode.value r4 p4 with
              | .error e => .error e
              | .ok (v, r5, p5) =>
                let (r6, p6) := skipWs r5 p5
                match r6 with
                | [] => .error ⟨"Expecting comma delimiter", p6⟩
                | e :: r7 =>
                  if e = rbraceC then .ok (Json.obj ((acc ++ [(key, v)])), r7, p6 + 1)
                  else if e = commaC then
                    let (r8, p8) := skipWs r7 (p6 + 1)
                    parseCore fuel (PMode.members (acc ++ [(key, v)])) r8 p8
                  else .error ⟨"Expecting comma delimiter", p6⟩
            else .error ⟨"Expecting colon delimiter", p2⟩
      else .error ⟨"Expecting property name enclosed in double quotes", pos⟩
  | Nat.succ fuel, PMode.arrayStart, cs, pos =>
    let (cs1, p1) := skipWs cs pos
    match cs1 with
    | c :: rest =>
      if c = rbrackC then .ok (Json.arr [], rest, p1 + 1)
      else
        match parseCore fuel PMode.value cs1 p1 with
        | .error e => .error e
        | .ok (v, r1, pv) => parseCore fuel (PMode.items [v]) r1 pv
    | [] => .error ⟨"Expecting value", p1⟩
  | Nat.succ fuel, PMode.items acc, cs, pos =>
    let (cs1, p1) := skipWs cs pos
    match cs1 with
    | [] => .error ⟨"Expecting comma delimiter", p1⟩
    | c :: rest =>
      if c = rbrackC then .ok (Json.arr acc, rest, p1 + 1)
      else if c = commaC then
        let (r2, p2) := skipWs rest (p1 + 1)
        match parseCore fuel PMode.value r2 p2 with
        | .error e => .error e
        | .ok (v, r3, p3) => parseCore fuel (PMode.items (acc ++ [v])) r3 p3
      else .error ⟨"Expecting comma delimiter", p1⟩

/-- Parse one JSON value starting at the first non-whitespace character. -/
def parseValue (fuel : Nat) (cs : List Char) (pos : Nat) : PRes Json :=
  parseCore fuel PMode.value cs pos

/-- Model of Python `json.loads` applied to the decoded file content: skip
leading whitespace, parse one value, require only whitespace after it
(otherwise json.load raises with msg `Extra data`).  `json.load(fp)` is
`json.loads(fp.read())`. -/
def jsonLoads (s : String) : Except JErr Json :=
  let cs := s.data
  let (cs1, p1) := skipWs cs 0
  match parseValue (4 * cs.length + 16) cs1 p1 with
  | .error e => .error e
  | .ok (j, rest, p2) =>
    let (rest2, p3) := skipWs rest p2
    match rest2 with
    | [] => .ok j
    | _ => .error ⟨"Extra data", p3⟩

/-- Line and column (both 1-based) of character offset `pos` in `doc`, as
json.JSONDecodeError computes them for its message. -/
def lineCol : List Char → Nat → Nat × Nat → Nat × Nat
  | _, 0, lc => lc
  | [], _ + 1, lc => lc
  | c :: cs, n + 1, (l, col) =>
    lineCol cs n (if c = nlC then (l + 1, 1) else (l, col + 1))

/-- The exceptions the try block can raise: OSError from `open` (missing or
unreadable file), UnicodeDecodeError from reading the stream as UTF-8, and
json.JSONDecodeError from `json.load`.  Each carries the data its Python
`str` rendering uses. -/
inductive PyExc where
  | osError (errno : Nat) (strerror : String) (filename : String) : PyExc
  | unicodeDecodeError (start : Nat) (reason : String) : PyExc
  | jsonDecodeError (doc : String) (msg : String) (pos : Nat) : PyExc
deriving Repr, DecidableEq

/-- Python `str(e)` for each exception, following the CPython formats:
OSError renders as `[Errno n] strerror: 'filename'`, UnicodeDecodeError
names the codec, position and reason, and JSONDecodeError renders as
`msg: line l column c (char pos)`. -/
def pyStr : PyExc → String
  | .osError errno strerror filename =>
    "[Errno " ++ (toString errno ++ ("] " ++ (strerror ++ (": " ++
      (squoteS ++ (filename ++ squoteS))))))
  | .unicodeDecodeError start reason =>
    squoteS ++ ("utf-8" ++ (squoteS ++ (" codec can" ++ (squoteS ++ ("t decode byte in position " ++
      (toString start ++ (": " ++ reason)))))))
  | .jsonDecodeError doc msg pos =>
    msg ++ (": line " ++ (toString (lineCol doc.data pos (1, 1)).1 ++
      (" column " ++ (toString (lineCol doc.data pos (1, 1)).2 ++
        (" (char " ++ (toString pos ++ ")"))))))

/-- What the environment does when the script runs
`open(f, 'r', encoding='utf-8')` and the stream is read: the decoded
content, an OSError from opening (missing or unreadable file), or a
UnicodeDecodeError while decoding the bytes. -/
inductive OpenResult where
  | ok (content : String) : OpenResult
  | osError (errno : Nat) (strerror : String) : OpenResult
  | decodeError (start : Nat) (reason : String) : OpenResult
deriving Repr, DecidableEq

/-- The filesystem state: what opening and reading each path yields. -/
def FS : Type := String → OpenResult

/-- The try-block body for one path (lines 11-12 of the script):
`with open(f, 'r', encoding='utf-8') as fp: json.load(fp)`.  An OSError
raised by `open` carries the path as its filename attribute. -/
def tryBody (fs : FS) (f : String) : Except PyExc Json :=
  match fs f with
  | .ok content =>
    match jsonLoads content with
    | .ok j => .ok j
    | .error e => .error (PyExc.jsonDecodeError content e.msg e.pos)
  | .osError errno strerror => .error (PyExc.osError errno strerror f)
  | .decodeError start reason => .error (PyExc.unicodeDecodeError start reason)

/-- The report block printed for one path (the loop body, lines 10-16):
on success `OK: <f>`, and on any exception `ERROR: <f>` followed by
`str(e)`.  The match on `tryBody` is the `try`/`except Exception` boundary:
every exception the body raises lands in the second branch. -/
def processFile (fs : FS) (f : String) : List String :=
  match tryBody fs f with
  | .ok _ => ["OK: " ++ f]
  | .error e => ["ERROR: " ++ f, pyStr e]

/-- The whole loop (lines 9-16): the printed lines, in path order. -/
def run (fs : FS) : List String → List String
  | [] => []
  | f :: rest => processFile fs f ++ run fs rest

/-- The loop body at the exception level: the handler
`except Exception as e` catches every exception of the try block (all
constructors of PyExc model Exception instances), so the step never
propagates an error. -/
def stepE (fs : FS) (f : String) : Except PyExc (List String) :=
  match tryBody fs f with
  | .ok _ => .ok ["OK: " ++ f]
  | .error e => .ok ["ERROR: " ++ f, pyStr e]

/-- The loop at the exception level: an uncaught exception in any step
would abort the whole run. -/
def runE (fs : FS) : List String → Except PyExc (List String)
  | [] => .ok []
  | f :: rest => do
    let block ← stepE fs f
    let out ← runE fs rest
    .ok (block ++ out)

/-- The hardcoded input list (lines 4-7 of the script). -/
def files : List String :=
  ["d:/download/VRC-Worlds-Manager-v2-vrc-world-manager-v1.3.0-rc.0/locales/ja-JP.json",
   "d:/download/VRC-Worlds-Manager-v2-vrc-world-manager-v1.3.0-rc.0/locales/en-US.json"]

/-- The process exit status: 0 when the module body runs to completion,
1 when an exception propagates out of it (CPython prints a traceback and
exits with status 1). -/
def exitCode (fs : FS) : Nat :=
  match runE fs files with
  | .ok _ => 0
  | .error _ => 1

/-- Observable events of one run: read-only opens, closes of the handle,
writes to a file, and lines printed to standard output.  The `write`
constructor is in the alphabet so that "no file is modified" is a statement
about the trace, not about the type. -/
inductive Event where
  | openRO (path : String) : Event
  | close (path : String) : Event
  | write (path : String) (data : String) : Event
  | out (line : String) : Event
deriving Repr, DecidableEq

/-- The event trace of one loop iteration.  When `open` fails no handle
exists, so no open or close event occurs; otherwise the `with` statement
closes the handle when its block exits, normally or by exception, before
the prints that follow. -/
def stepTrace (fs : FS) (f : String) : List Event :=
  match fs f with
  | .osError errno strerror =>
    [Event.out ("ERROR: " ++ f), Event.out (pyStr (PyExc.osError errno strerror f))]
  | .decodeError start reason =>
    [Event.openRO f, Event.close f,
     Event.out ("ERROR: " ++ f), Event.out (pyStr (PyExc.unicodeDecodeError start reason))]
  | .ok content =>
    match jsonLoads content with
    | .ok _ => [Event.openRO f, Event.close f, Event.out ("OK: " ++ f)]
    | .error e =>
      [Event.openRO f, Event.close f, Event.out ("ERROR: " ++ f),
       Event.out (pyStr (PyExc.jsonDecodeError content e.msg e.pos))]

/-- The event trace of the whole run. -/
def runTrace (fs : FS) : List String → List Event
  | [] => []
  | f :: rest => stepTrace fs f ++ runTrace fs rest

/-! ### Helper lemmas -/

/-- A string whose left append component is nonempty is nonempty. -/
lemma append_ne_empty_left (a b : String) (h : 0 < a.length) : a ++ b ≠ "" := by
  intro hc
  have h2 := congrArg String.length hc
  rw [String.length_append, String.length_empty] at h2
  omega

/-- A string whose right append component is nonempty is nonempty. -/
lemma append_ne_empty_right (a b : String) (h : 0 < b.length) : a ++ b ≠ "" := by
  intro hc
  have h2 := congrArg String.length hc
  rw [String.length_append, String.length_empty] at h2
  omega

/-- Python str(e) is nonempty for every exception the try block can raise:
OSError renders with an `[Errno n]` prefix, UnicodeDecodeError names the
codec, and JSONDecodeError appends the line/column/offset suffix to its
message. -/
lemma pyStr_ne_empty (e : PyExc) : pyStr e ≠ "" := by
  cases e with
  | osError errno strerror filename =>
    exact append_ne_empty_left _ _ (by decide)
  | unicodeDecodeError start reason =>
    exact append_ne_empty_left _ _ (by decide)
  | jsonDecodeError doc msg pos =>
    unfold pyStr
    apply append_ne_empty_right
    rw [String.length_append]
    have h7 : (": line ").length = 7 := by decide
    omega

/-- The report block depends only on the path and what the filesystem
yields for it. -/
lemma processFile_congr (fs₁ fs₂ : FS) (f : String) (h : fs₁ f = fs₂ f) :
    processFile fs₁ f = processFile fs₂ f := by
  unfold processFile tryBody
  rw [h]

/-- The exception handler catches every exception of the loop body, so one
step never propagates an error. -/
lemma stepE_eq_ok (fs : FS) (f : String) :
    stepE fs f = Except.ok (processFile fs f) := by
  unfold stepE processFile
  cases tryBody fs f <;> rfl

/-- The exception-level loop runs to completion and yields the full
output. -/
lemma runE_eq_ok (fs : FS) (paths : List String) :
    runE fs paths = Except.ok (run fs paths) := by
  induction paths with
  | nil => rfl
  | cons f rest ih => simp [runE, run, stepE_eq_ok, ih]; rfl

/-! ### Claim theorems -/

/-- C1: for every path whose file opens, decodes as UTF-8, and parses as a
syntactically valid JSON document, the report block emitted for that path is
exactly the single line `OK: <path>`, with no following error line. -/
theorem c1_valid_json_single_ok_line (fs : FS) (f content : String) (j : Json)
    (hopen : fs f = OpenResult.ok content)
    (hparse : jsonLoads content = Except.ok j) :
    processFile fs f = ["OK: " ++ f] := by
  simp only [processFile, tryBody, hopen, hparse]

/-- Witness for C1 at a concrete filesystem whose every file holds the
valid JSON document `[0]`. -/
theorem c1_valid_json_single_ok_line_witness :
    (fun _ => OpenResult.ok "[0]" : FS) "a.json" = OpenResult.ok "[0]" ∧
    jsonLoads "[0]" = Except.ok (Json.arr [Json.num "0"]) ∧
    processFile (fun _ => OpenResult.ok "[0]") "a.json" = ["OK: " ++ "a.json"] :=
  ⟨rfl, rfl,
    c1_valid_json_single_ok_line (fun _ => OpenResult.ok "[0]") "a.json" "[0]"
      (Json.arr [Json.num "0"]) rfl rfl⟩

/-- C2: for every path that is missing, unreadable, undecodable, or whose
content is invalid JSON, the report block is exactly the two lines
`ERROR: <path>` then a nonempty message line; both failure kinds produce
the same two-line shape, with no distinction. -/
theorem c2_failure_two_lines_nonempty_message (fs : FS) (f : String)
    (hfail : (∃ en st, fs f = OpenResult.osError en st) ∨
      (∃ p r, fs f = OpenResult.decodeError p r) ∨
      (∃ content e, fs f = OpenResult.ok content ∧
        jsonLoads content = Except.error e)) :
    ∃ msg, processFile fs f = ["ERROR: " ++ f, msg] ∧ msg ≠ "" := by
  rcases hfail with ⟨en, st, h⟩ | ⟨p, r, h⟩ | ⟨content, e, h, hp⟩
  · exact ⟨pyStr (PyExc.osError en st f),
      by simp only [processFile, tryBody, h], pyStr_ne_empty _⟩
  · exact ⟨pyStr (PyExc.unicodeDecodeError p r),
      by simp only [processFile, tryBody, h], pyStr_ne_empty _⟩
  · exact ⟨pyStr (PyExc.jsonDecodeError content e.msg e.pos),
      by simp only [processFile, tryBody, h, hp], pyStr_ne_empty _⟩

/-- Witness for C2 at a concrete filesystem where the file is missing. -/
theorem c2_failure_two_lines_nonempty_message_witness :
    ∃ msg, processFile (fun _ => OpenResult.osError 2 "No such file or directory")
      "missing.json" = ["ERROR: " ++ "missing.json", msg] ∧ msg ≠ "" :=
  c2_failure_two_lines_nonempty_message
    (fun _ => OpenResult.osError 2 "No such file or directory") "missing.json"
    (Or.inl ⟨2, "No such file or directory", rfl⟩)

/-- C3: the printed output is the concatenation of exactly one report block
per path, in input order, with no omissions, duplications or reordering;
the empty sequence produces no output. -/
theorem c3_output_is_ordered_concat_of_blocks (fs : FS) (paths : List String) :
    run fs paths = (paths.map (processFile fs)).flatten ∧ run fs [] = [] := by
  refine ⟨?_, rfl⟩
  induction paths with
  | nil => rfl
  | cons f rest ih => simp [run, ih]

/-- C4: the report block at position i depends only on the path at
position i and what the filesystem yields for it: any change to the
filesystem away from that path, such as a failure at another position,
leaves the block at position i unchanged. -/
theorem c4_block_isolated_from_other_paths (fs₁ fs₂ : FS)
    (paths : List String) (i : Nat) (hi : i < paths.length)
    (hagree : fs₁ (paths.get ⟨i, hi⟩) = fs₂ (paths.get ⟨i, hi⟩)) :
    (paths.map (processFile fs₁)).get ⟨i, by simpa using hi⟩ =
      (paths.map (processFile fs₂)).get ⟨i, by simpa using hi⟩ := by
  rw [List.get_eq_getElem, List.get_eq_getElem, List.getElem_map, List.getElem_map]
  exact processFile_congr fs₁ fs₂ _ hagree

/-- Witness for C4: making the second file fail does not change the first
report block. -/
theorem c4_block_isolated_from_other_paths_witness :
    (["a.json", "b.json"].map (processFile (fun _ => OpenResult.ok "[0]"))).get
        ⟨0, by simp⟩ =
      (["a.json", "b.json"].map (processFile
        (fun g => if g = "b.json" then OpenResult.osError 2 "gone"
          else OpenResult.ok "[0]"))).get ⟨0, by simp⟩ :=
  c4_block_isolated_from_other_paths (fun _ => OpenResult.ok "[0]")
    (fun g => if g = "b.json" then OpenResult.osError 2 "gone"
      else OpenResult.ok "[0]")
    ["a.json", "b.json"] 0 (by decide) (by decide)

/-- C5: run itself never raises an error to its caller: every per-file
open, decode and parse failure is caught inside the per-file step, and the
exception-level loop terminates normally with the full output for all
paths. -/
theorem c5_run_never_raises (fs : FS) (paths : List String) :
    runE fs paths = Except.ok (run fs paths) :=
  runE_eq_ok fs paths

/-- C6: the program is deterministic over the filesystem state: two runs
over the same paths whose files hold the same contents produce identical
output. -/
theorem c6_output_determined_by_contents (fs₁ fs₂ : FS) (paths : List String)
    (h : ∀ f ∈ paths, fs₁ f = fs₂ f) :
    run fs₁ paths = run fs₂ paths := by
  induction paths with
  | nil => rfl
  | cons f rest ih =>
    have h1 : processFile fs₁ f = processFile fs₂ f :=
      processFile_congr fs₁ fs₂ f (h f (List.mem_cons_self f rest))
    have h2 := ih fun g hg => h g (List.mem_cons_of_mem f hg)
    simp [run, h1, h2]

/-- Witness for C6: two filesystems that agree on the configured path but
differ elsewhere give the same output. -/
theorem c6_output_determined_by_contents_witness :
    run (fun _ => OpenResult.ok "null") ["a.json"] =
      run (fun g => if g = "a.json" then OpenResult.ok "null"
        else OpenResult.osError 2 "gone") ["a.json"] :=
  c6_output_determined_by_contents (fun _ => OpenResult.ok "null")
    (fun g => if g = "a.json" then OpenResult.ok "null"
      else OpenResult.osError 2 "gone")
    ["a.json"]
    (by intro f hf; rcases List.mem_singleton.mp hf with rfl; rfl)

/-- C7: for every filesystem state the process exits with status 0; no
per-file outcome reaches the exit code. -/
theorem c7_exit_status_always_zero (fs : FS) : exitCode fs = 0 := by
  unfold exitCode
  rw [runE_eq_ok]

/-- C8: in every loop iteration, when a handle is acquired it is closed
again before any line of that path's report is printed (on successful
parse and on parse or decode failure alike; a failed open acquires no
handle), the printed lines are exactly the report block, and no write to
any file ever occurs — the trace writes only to standard output. -/
theorem c8_handle_released_before_report_no_writes (fs : FS) (f : String) :
    (stepTrace fs f = (processFile fs f).map Event.out ∨
      stepTrace fs f =
        Event.openRO f :: Event.close f :: (processFile fs f).map Event.out) ∧
    ∀ p d, Event.write p d ∉ stepTrace fs f := by
  unfold stepTrace processFile tryBody
  rcases hfs : fs f with content | ⟨en, st⟩ | ⟨p, r⟩
  · dsimp only
    rcases hp : jsonLoads content with j | e
    · exact ⟨Or.inr rfl, by intro p d; simp⟩
    · exact ⟨Or.inr rfl, by intro p d; simp⟩
  · exact ⟨Or.inl rfl, by intro p d; simp⟩
  · exact ⟨Or.inr rfl, by intro p d; simp⟩

/-- C9: the configured input list is exactly the ja-JP locale path followed
by the en-US locale path, and every run emits exactly the two corresponding
report blocks, in that order. -/
theorem c9_two_fixed_paths_two_blocks (fs : FS) :
    files =
      ["d:/download/VRC-Worlds-Manager-v2-vrc-world-manager-v1.3.0-rc.0/locales/ja-JP.json",
       "d:/download/VRC-Worlds-Manager-v2-vrc-world-manager-v1.3.0-rc.0/locales/en-US.json"] ∧
    run fs files =
      processFile fs
        "d:/download/VRC-Worlds-Manager-v2-vrc-world-manager-v1.3.0-rc.0/locales/ja-JP.json" ++
      processFile fs
        "d:/download/VRC-Worlds-Manager-v2-vrc-world-manager-v1.3.0-rc.0/locales/en-US.json" := by
  refine ⟨rfl, ?_⟩
  simp [run, files]

/-- C10: on a per-file failure the second line of the report block is
exactly str(e) for the caught exception, with no added text around it;
in particular an empty str(e) would print as an empty line. -/
theorem c10_message_line_is_exactly_str_of_exception (fs : FS) (f : String)
    (e : PyExc) (h : tryBody fs f = Except.error e) :
    processFile fs f = ["ERROR: " ++ f, pyStr e] := by
  simp only [processFile, h]

/-- Witness for C10 at a concrete missing file. -/
theorem c10_message_line_is_exactly_str_of_exception_witness :
    processFile (fun _ => OpenResult.osError 2 "No such file or directory")
      "missing.json" =
    ["ERROR: " ++ "missing.json",
     pyStr (PyExc.osError 2 "No such file or directory" "missing.json")] :=
  c10_message_line_is_exactly_str_of_exception
    (fun _ => OpenResult.osError 2 "No such file or directory") "missing.json"
    (PyExc.osError 2 "No such file or directory" "missing.json") rfl

end VerifyJson
